import Mathlib

/-
Verification development for the crautos harvesting pipeline.

The definitions below are a shallow embedding of the two harvesting scripts
(`scraper_car_details.py` and `data_scrapper/01_scraper_pagination_list.py`,
plus the legacy `scraper.py`).  Pure functions are translated directly;
stateful code is modelled by explicit state passing; the filesystem and the
network are modelled as explicit environments.  Machine floats for
timestamps/rates are modelled as exact rationals: timestamps are ℚ, the
error-rate test `errors/total > 0.1` and the throughput averages are exact
rational arithmetic, and `int(target * 0.7)` is modelled as ⌊7·target/10⌋,
which agrees with the IEEE-double computation for the integer magnitudes a
concurrency level can take.
-/

namespace Crautos

/-! ## Concurrency Controller (scraper_car_details.py, class ConcurrencyManager) -/

/-- State of `ConcurrencyManager` (scraper_car_details.py lines 159-171):
target level, configured bounds, success/error counters since the last
decision, timestamp of the last decision, and the bounded throughput
history (a `deque(maxlen=30)` of (concurrency, throughput) samples). -/
structure ConcurrencyManager where
  target_concurrency : ℕ
  min : ℕ
  max : ℕ
  success_count : ℕ
  error_count : ℕ
  last_check_time : ℚ
  throughput_history : List (ℕ × ℚ)
  deriving DecidableEq, Repr

/-- Constructor `ConcurrencyManager.__init__` (lines 162-171): counters zero,
timestamp the current time, empty history. -/
def ConcurrencyManager.init (initial min_val max_val : ℕ) (now : ℚ) :
    ConcurrencyManager :=
  { target_concurrency := initial
    min := min_val
    max := max_val
    success_count := 0
    error_count := 0
    last_check_time := now
    throughput_history := [] }

/-- Method `record_success` (lines 173-175). -/
def ConcurrencyManager.record_success (m : ConcurrencyManager) :
    ConcurrencyManager :=
  { m with success_count := m.success_count + 1 }

/-- Method `record_error` (lines 177-179). -/
def ConcurrencyManager.record_error (m : ConcurrencyManager) :
    ConcurrencyManager :=
  { m with error_count := m.error_count + 1 }

/-- Method `_reset_counters` (lines 270-273): both counters and the
timestamp are reset together. -/
def ConcurrencyManager.resetCounters (m : ConcurrencyManager) (now : ℚ) :
    ConcurrencyManager :=
  { m with success_count := 0, error_count := 0, last_check_time := now }

/-- Append to a `deque(maxlen=cap)`: push at the right, evict the oldest
elements beyond the capacity. -/
def dequePush (cap : ℕ) (h : List α) (x : α) : List α :=
  let h2 := h ++ [x]
  h2.drop (h2.length - cap)

/-- Helper for insertion-ordered keys of `perf_by_concurrency`
(lines 227-231): a key is appended the first time it is seen. -/
def insertKey (ks : List ℕ) (c : ℕ) : List ℕ :=
  if c ∈ ks then ks else ks ++ [c]

/-- Keys of `perf_by_concurrency` in Python dict insertion order
(first occurrence in the history). -/
def keysInOrder (l : List (ℕ × ℚ)) : List ℕ :=
  l.foldl (fun ks p => insertKey ks p.1) []

/-- Throughput samples recorded at concurrency level `c` (the list
`perf_by_concurrency[c]`, lines 227-231). -/
def valuesFor (l : List (ℕ × ℚ)) (c : ℕ) : List ℚ :=
  (l.filter (fun p => p.1 == c)).map Prod.snd

/-- Average of a list of rationals (`sum(t_list) / len(t_list)`, line 234). -/
def avgList (l : List ℚ) : ℚ :=
  l.sum / (l.length : ℚ)

/-- The `best_concurrency = max(avg_perf, key=avg_perf.get)` computation
(line 243): Python's `max` returns the first key attaining the maximal
value in dict insertion order, so later keys replace the running best only
on a strictly larger average. -/
def bestConcurrency (l : List (ℕ × ℚ)) : ℕ :=
  match keysInOrder l with
  | [] => 0
  | k :: kt =>
    kt.foldl (fun best c =>
      if avgList (valuesFor l best) < avgList (valuesFor l c) then c else best) k

/-- Method `adjust_concurrency` (lines 181-268) as a pure transition on the
manager state, taking the current time as a parameter.  Branches, in source
order: dwell gate (< 20s elapsed: no action); no traffic (reset only);
emergency contraction when errorRate > 0.1 (multiplicative shrink, reset,
no history append); history append followed by the cautious probe when the
history holds fewer than 5 samples; otherwise hill-climbing around the best
historical concurrency. -/
def ConcurrencyManager.adjust_concurrency (m : ConcurrencyManager) (now : ℚ) :
    ConcurrencyManager :=
  let elapsed := now - m.last_check_time
  if elapsed < 20 then m
  else
    let total := m.success_count + m.error_count
    if total = 0 then m.resetCounters now
    else
      let error_rate : ℚ := (m.error_count : ℚ) / (total : ℚ)
      if 1/10 < error_rate then
        let new_target := Nat.max m.min (7 * m.target_concurrency / 10)
        ({ m with target_concurrency := new_target }).resetCounters now
      else
        let current_throughput : ℚ := (m.success_count : ℚ) / elapsed
        let hist := dequePush 30 m.throughput_history
          (m.target_concurrency, current_throughput)
        let m1 := { m with throughput_history := hist }
        if hist.length < 5 then
          ({ m1 with
            target_concurrency :=
              Nat.min m.max (m.target_concurrency + 1) }).resetCounters now
        else
          if keysInOrder hist = [] then m1.resetCounters now
          else
            let best := bestConcurrency hist
            if m.target_concurrency < best then
              ({ m1 with
                target_concurrency :=
                  Nat.min m.max (m.target_concurrency + 1) }).resetCounters now
            else if best < m.target_concurrency then
              ({ m1 with
                target_concurrency :=
                  Nat.max m.min (m.target_concurrency - 1) }).resetCounters now
            else
              ({ m1 with
                target_concurrency :=
                  Nat.min m.max (m.target_concurrency + 1) }).resetCounters now

/-! ## Item id extraction (scraper_car_details.py, get_car_id_from_url)

`get_car_id_from_url` runs `parse_qs(urlparse(url).query).get("c", [None])[0]`.
We embed the relevant parts of `urlparse` (fragment split at the first `#`,
then query after the first `?`) and of `parse_qs` with its default options
(fields split on `&`, name/value split at the first `=`, fields without a
`=` or with an empty value dropped).  Percent-decoding of components is not
modelled; it is the identity on the digit-only ids the site uses. -/

/-- Split a character list at every occurrence of the separator character,
Python `str.split(sep)` semantics for a one-character separator. -/
def splitChar (sep : Char) : List Char → List (List Char)
  | [] => [[]]
  | c :: rest =>
    if c = sep then [] :: splitChar sep rest
    else
      match splitChar sep rest with
      | [] => [[c]]
      | h :: t => (c :: h) :: t

/-- Query component of a URL: the part of `url` before the first `#` that
follows the first `?` (empty when there is no `?`), as in `urlparse`. -/
def queryOf (url : List Char) : List Char :=
  let preFragment := url.takeWhile (fun c => c ≠ '#')
  ((preFragment.dropWhile (fun c => c ≠ '?')).drop 1)

/-- One field of a query string, under `parse_qsl` defaults: skip empty
fields, skip fields without `=`, split name/value at the first `=`, and
skip fields whose value is empty (`keep_blank_values=False`). -/
def parseQsField (f : List Char) : Option (List Char × List Char) :=
  if f = [] then none
  else if f.contains '=' then
    let name := f.takeWhile (fun c => c ≠ '=')
    let value := (f.dropWhile (fun c => c ≠ '=')).drop 1
    if value = [] then none else some (name, value)
  else none

/-- The pairs produced by `parse_qsl` on a query string, in order. -/
def parseQsl (qs : List Char) : List (List Char × List Char) :=
  (splitChar '&' qs).filterMap parseQsField

/-- Embedding of `get_car_id_from_url` (scraper_car_details.py lines
303-307): first value of the `c` query parameter, or `None`. -/
def get_car_id_from_url (url : String) : Option String :=
  (((parseQsl (queryOf url.toList)).filter (fun p => p.1 = ['c'])).head?).map
    (fun p => p.2.asString)

/-! ## Task Orchestrator per-item worker (scraper_car_details.py,
scrape_single_url) -/

/-- Retry cap `TRIES` (scraper_car_details.py line 29). -/
def TRIES : ℕ := 3

/-- Observable effects of one `scrape_single_url` call: fetch cycles begun
(each opens a page and navigates), outcomes reported to the Controller,
backoff sleeps between failed attempts, politeness sleeps after a success,
and the output file written (keyed by car id), if any. -/
structure WorkerTrace where
  attempts : ℕ
  successesReported : ℕ
  errorsReported : ℕ
  backoffSleeps : List ℕ
  politenessSleeps : ℕ
  savedFile : Option String
  deriving DecidableEq, Repr

/-- The `for attempt in range(TRIES)` loop of `scrape_single_url`
(lines 443-469), driven by an oracle telling whether the fetch+extract
cycle of a given attempt index succeeds.  On success: save the record,
report one success, politeness-sleep, stop.  On failure: if this was the
last attempt (`attempt == TRIES - 1`), report exactly one error and stop;
otherwise sleep `3 + attempt * 2` seconds and retry. -/
def attemptLoop (car_id : String) (outcome : ℕ → Bool) :
    ℕ → ℕ → WorkerTrace
  | _, 0 =>
    { attempts := 0, successesReported := 0, errorsReported := 0
      backoffSleeps := [], politenessSleeps := 0, savedFile := none }
  | attempt, rem + 1 =>
    if outcome attempt then
      { attempts := 1, successesReported := 1, errorsReported := 0
        backoffSleeps := [], politenessSleeps := 1
        savedFile := some car_id }
    else if attempt = TRIES - 1 then
      { attempts := 1, successesReported := 0, errorsReported := 1
        backoffSleeps := [], politenessSleeps := 0, savedFile := none }
    else
      let rest := attemptLoop car_id outcome (attempt + 1) rem
      { attempts := rest.attempts + 1
        successesReported := rest.successesReported
        errorsReported := rest.errorsReported
        backoffSleeps := (3 + attempt * 2) :: rest.backoffSleeps
        politenessSleeps := rest.politenessSleeps
        savedFile := rest.savedFile }

/-- Embedding of `scrape_single_url` (lines 431-469).  The id guard is the
source's falsy test `if not car_id` (true for `None` and for an empty
string): report one error and return without opening a page. -/
def scrape_single_url (url : String) (outcome : ℕ → Bool) : WorkerTrace :=
  let car_id := get_car_id_from_url url
  if car_id = none ∨ car_id = some "" then
    { attempts := 0, successesReported := 0, errorsReported := 1
      backoffSleeps := [], politenessSleeps := 0, savedFile := none }
  else
    attemptLoop (car_id.getD "") outcome 0 TRIES

/-! ## Fetch phase wiring (scraper_car_details.py, main)

`main` builds the admission gate once, as `asyncio.Semaphore(max_concurrency)`
(line 509), and hands the same semaphore to every worker; nothing in the
program ever resizes it, while the adjuster task mutates only
`manager.target_concurrency`. -/

/-- State of the fetch phase: the Controller plus the admission semaphore's
capacity. -/
structure FetchPhase where
  manager : ConcurrencyManager
  semCapacity : ℕ
  deriving DecidableEq, Repr

/-- Fetch-phase setup in `main` (lines 496-509): a fresh manager and a
semaphore of capacity `max_concurrency`. -/
def FetchPhase.init (initial min_val max_val : ℕ) (now : ℚ) : FetchPhase :=
  { manager := ConcurrencyManager.init initial min_val max_val now
    semCapacity := max_val }

/-- A worker reporting a success (line 453); the semaphore is acquired and
released but its capacity is untouched. -/
def FetchPhase.recordSuccess (fp : FetchPhase) : FetchPhase :=
  { fp with manager := fp.manager.record_success }

/-- A worker reporting an error (lines 439, 464); capacity untouched. -/
def FetchPhase.recordError (fp : FetchPhase) : FetchPhase :=
  { fp with manager := fp.manager.record_error }

/-- One firing of `adjuster_task` (lines 279-283): it calls
`adjust_concurrency` and touches nothing else — in particular not the
semaphore. -/
def FetchPhase.adjust (fp : FetchPhase) (now : ℚ) : FetchPhase :=
  { fp with manager := fp.manager.adjust_concurrency now }

/-! ## Listing Harvester (data_scrapper/01_scraper_pagination_list.py)

The filesystem is modelled by the parsed JSON contents of the two files the
script touches; the site is an environment giving the outcome of each
remote interaction.  `urljoin` absolutization is folded into the
environment: `extract p` returns the absolute detail URLs found on page
`p` (or `none` when `wait_for_selector` times out). -/

/-- The two files of the discovery phase: `URLS_FILE` and
`FAILED_URLS_FILE`, each `none` when absent, otherwise the decoded JSON
list. -/
structure FS where
  urlsFile : Option (List String)
  failedFile : Option (List String)
  deriving DecidableEq, Repr

/-- Environment for one harvest run.  `control` is the outcome of looking
up the `Última Página` link: `none` when the locator times out (control
absent), otherwise the `href` attribute text.  `navOk p` tells whether the
pagination transition `p('<p>')` succeeds, and `extract p` gives the
absolute detail URLs extracted from page `p`, or `none` on a selector
timeout. -/
structure HarvestEnv where
  control : Option String
  navOk : ℕ → Bool
  extract : ℕ → Option (List String)

/-- Decimal value of a digit list. -/
def digitsToNat (ds : List Char) : ℕ :=
  ds.foldl (fun n c => 10 * n + (c.toNat - 48)) 0

/-- Quote character, written by code point to keep the source ASCII-clean. -/
def quoteChar : Char := Char.ofNat 39

/-- A pagination link reference of the site's form `p(<quote><payload><quote>)`,
built without literal quote characters in this source. -/
def pageHref (payload : List Char) : String :=
  String.mk (('p' :: '(' :: quoteChar :: payload) ++ [quoteChar, ')'])

/-- Try to match the regex `p\('(\d+)'\)` at the head of the list:
literal `p('`, one or more digits, then `')`. -/
def matchPageArgAt (l : List Char) : Option ℕ :=
  match l with
  | c1 :: c2 :: c3 :: rest =>
    if c1 = 'p' ∧ c2 = '(' ∧ c3 = quoteChar then
      let ds := rest.takeWhile Char.isDigit
      match ds, rest.dropWhile Char.isDigit with
      | [], _ => none
      | _, c4 :: c5 :: _ =>
        if c4 = quoteChar ∧ c5 = ')' then some (digitsToNat ds) else none
      | _, _ => none
    else none
  | _ => none

/-- `re.search(r"p\('(\d+)'\)", href)`: leftmost match of the pattern,
scanning one character at a time. -/
def findPageArg : List Char → Option ℕ
  | [] => none
  | c :: t =>
    match matchPageArgAt (c :: t) with
    | some n => some n
    | none => findPageArg t

/-- Embedding of `append_failed_url` (01_scraper_pagination_list.py lines
32-43): read the current marker list (empty when the file is absent),
append the marker unless already present, write the file back. -/
def append_failed_url (fs : FS) (url : String) : FS :=
  let cur := fs.failedFile.getD []
  { fs with failedFile := some (if url ∈ cur then cur else cur ++ [url]) }

/-- Set-insert into the accumulated URL list (`detail_urls.add`, line 111;
the model fixes first-seen order as the set enumeration order). -/
def insertUrl (urls : List String) (u : String) : List String :=
  if u ∈ urls then urls else urls ++ [u]

/-- Body of the `for page_num in range(1, last_page_number + 1)` loop
(lines 86-121) for one page: pages beyond the first replay the pagination
transition first, and a failed transition appends a `PAGE::<n>` marker and
skips the page; then a selector timeout during extraction also appends the
marker; otherwise every extracted URL is added to the accumulated set. -/
def harvestPage (env : HarvestEnv) (acc : List String × FS) (page_num : ℕ) :
    List String × FS :=
  if 1 < page_num ∧ ¬ env.navOk page_num then
    (acc.1, append_failed_url acc.2 ("PAGE::" ++ Nat.repr page_num))
  else
    match env.extract page_num with
    | none => (acc.1, append_failed_url acc.2 ("PAGE::" ++ Nat.repr page_num))
    | some hrefs => (hrefs.foldl insertUrl acc.1, acc.2)

/-- Result of a harvest run: the filesystem afterwards, the number of
remote interactions performed, and whether the run aborted at startup
(unparseable page count). -/
structure HarvestResult where
  fs : FS
  networkCalls : ℕ
  aborted : Bool
  deriving DecidableEq, Repr

/-- Page-count resolution step of `ensure_url_list_exists`
(01_scraper_pagination_list.py lines 64-83): a control whose lookup times
out means a single page (lines 76-80); a present control is matched
against `p\('(\d+)'\)`, and a failed match means startup abort
(lines 69-73), represented as `none`. -/
def resolvePageCount (env : HarvestEnv) : Option ℕ :=
  match env.control with
  | none => some 1
  | some href => findPageArg href.toList

/-- Embedding of `ensure_url_list_exists`
(01_scraper_pagination_list.py lines 47-125).  If `URLS_FILE` exists the
function returns at once (lines 52-56) touching nothing.  Otherwise it
navigates to the listing root and opens the results (two remote calls),
resolves the page count — an unresolvable count aborts the run with
nothing persisted — then walks pages `1..last`, counting one remote call
per transition replay on pages `> 1`, and finally persists the accumulated
URL set unconditionally (line 124). -/
def ensure_url_list_exists (env : HarvestEnv) (fs : FS) : HarvestResult :=
  if fs.urlsFile.isSome then { fs := fs, networkCalls := 0, aborted := false }
  else
    let startupCalls := 2
    match resolvePageCount env with
    | none => { fs := fs, networkCalls := startupCalls, aborted := true }
    | some last_page_number =>
      let pages := List.range' 1 last_page_number
      let result := pages.foldl (harvestPage env) ([], fs)
      let transitionCalls := (pages.filter (fun p => 1 < p)).length
      { fs := { result.2 with urlsFile := some result.1 }
        networkCalls := startupCalls + transitionCalls
        aborted := false }

/-! ## Legacy harvester (scraper.py, ensure_url_list_exists)

In `scraper.py` the body of `ensure_url_list_exists` has its existence
guard commented out (lines 70-72), so it always navigates and re-scrapes,
although its own docstring still promises creation only when the file is
missing.  The page walk follows the visible next-button: the environment
is the list of successive pages' extracted URLs. -/

/-- Environment of the legacy harvester: the URLs extracted on each
successive page of the next-button walk (the walk stops after the last
entry, where the next button is not visible). -/
structure LegacyEnv where
  pages : List (List String)

/-- Embedding of scraper.py `ensure_url_list_exists` (lines 65-101): no
existence check, accumulate the deduplicated URL set across the
next-button walk, then overwrite `URLS_FILE`.  Remote calls: the root
navigation and the search click, plus one next-button click per page
transition. -/
def ensure_url_list_exists_legacy (env : LegacyEnv) (fs : FS) :
    HarvestResult :=
  let urls := env.pages.foldl (fun acc hrefs => hrefs.foldl insertUrl acc) []
  { fs := { fs with urlsFile := some urls }
    networkCalls := 2 + (env.pages.length - 1)
    aborted := false }

/-! ## Retry pass (data_scrapper/01_scraper_pagination_list.py,
retry_failed_pages) -/

/-- Environment of a retry pass: whether re-establishing the base listing
state succeeds, and for each retried page index the extracted absolute
URLs (`none` when the transition replay or the selector wait fails). -/
structure RetryEnv where
  baseOk : Bool
  retryOutcome : ℕ → Option (List String)

/-- The `item.split("::")[1]` component for an item known to start with
`PAGE::`: the characters after that first `::` up to the next `::` (or the
end). -/
def pagePart : List Char → List Char
  | [] => []
  | [c] => [c]
  | c1 :: c2 :: rest =>
    if c1 = ':' ∧ c2 = ':' then [] else c1 :: pagePart (c2 :: rest)

/-- Python `int(s)` on a marker payload, modelled for plain digit strings
(the only form the script ever writes); anything else raises `ValueError`,
i.e. returns `none` here. -/
def parseIntOpt (s : List Char) : Option ℕ :=
  if s ≠ [] ∧ s.all Char.isDigit then some (digitsToNat s) else none

/-- The `item.startswith("PAGE::")` test (line 172). -/
def isPageMarker (item : String) : Bool :=
  "PAGE::".toList.isPrefixOf item.toList

/-- The `item.split("::")[1]` payload of a `PAGE::` marker. -/
def markerPayload (item : String) : List Char :=
  pagePart (item.toList.drop 6)

/-- The retry loop of `retry_failed_pages` (lines 171-204), returning the
`still_failed` list and the accumulated `newly_scraped_urls` (in first-seen
order).  Items not starting with `PAGE::` are skipped outright — neither
retried nor kept.  For a `PAGE::` item, a payload that `int()` rejects, or
a failed transition/extraction, lands the item in `still_failed`; on
success every found URL not already in the existing set nor already newly
scraped is appended. -/
def retryLoop (env : RetryEnv) (existing : List String) :
    List String → List String → List String × List String
  | [], newly => ([], newly)
  | item :: rest, newly =>
    if isPageMarker item then
      match parseIntOpt (markerPayload item) with
      | none =>
        let r := retryLoop env existing rest newly
        (item :: r.1, r.2)
      | some page_num =>
        match env.retryOutcome page_num with
        | none =>
          let r := retryLoop env existing rest newly
          (item :: r.1, r.2)
        | some urls =>
          let newly2 := urls.foldl
            (fun acc u => if u ∈ existing ∨ u ∈ acc then acc else acc ++ [u])
            newly
          retryLoop env existing rest newly2
    else retryLoop env existing rest newly

/-- Embedding of `retry_failed_pages` (lines 128-219).  Nothing happens
when the marker file is absent or empty, or when re-establishing the base
state fails.  Otherwise the existing discovery set is loaded as a set, the
marked items are replayed, the merged URL set is persisted only when new
URLs were found, and the marker file is rewritten with the still-failing
items or deleted when none remain. -/
def retry_failed_pages (env : RetryEnv) (fs : FS) : FS :=
  match fs.failedFile with
  | none => fs
  | some failed_items =>
    if failed_items = [] then fs
    else if ¬ env.baseOk then fs
    else
      let existing := (fs.urlsFile.getD []).dedup
      let r := retryLoop env existing failed_items []
      let fs1 :=
        if r.2 ≠ [] then { fs with urlsFile := some (existing ++ r.2) } else fs
      if r.1 ≠ [] then { fs1 with failedFile := some r.1 }
      else { fs1 with failedFile := none }

/-- All URLs yielded by the pages a retry pass successfully re-scrapes:
the set `N` of the retry-union property, read off the same environment. -/
def yieldedUrls (env : RetryEnv) : List String → List String
  | [] => []
  | item :: rest =>
    if isPageMarker item then
      match parseIntOpt (markerPayload item) with
      | none => yieldedUrls env rest
      | some page_num =>
        match env.retryOutcome page_num with
        | none => yieldedUrls env rest
        | some urls => urls ++ yieldedUrls env rest
    else yieldedUrls env rest

/-- A page of the harvest loop fails when its pagination transition fails
(pages beyond the first) or its link extraction times out — exactly the
two conditions under which `ensure_url_list_exists` writes a
`PAGE::<n>` marker. -/
def pageFails (env : HarvestEnv) (p : ℕ) : Bool :=
  if 1 < p ∧ ¬ env.navOk p then true else (env.extract p).isNone

/-! ## Operation alphabet of the Controller, for stating state invariants -/

/-- The operations the rest of the program performs on a
`ConcurrencyManager`: worker success/error reports and firings of the
periodic adjuster. -/
inductive ControllerOp where
  | success : ControllerOp
  | error : ControllerOp
  | adjust (now : ℚ) : ControllerOp

/-- Apply one operation to the manager state. -/
def applyOp : ControllerOp → ConcurrencyManager → ConcurrencyManager
  | ControllerOp.success, m => m.record_success
  | ControllerOp.error, m => m.record_error
  | ControllerOp.adjust now, m => m.adjust_concurrency now

/-- Run a sequence of operations left to right. -/
def runOps (ops : List ControllerOp) (m : ConcurrencyManager) :
    ConcurrencyManager :=
  ops.foldl (fun m op => applyOp op m) m

/-- The target-level invariant of the Controller state. -/
def InBounds (m : ConcurrencyManager) : Prop :=
  m.min ≤ m.target_concurrency ∧ m.target_concurrency ≤ m.max

instance (m : ConcurrencyManager) : Decidable (InBounds m) :=
  inferInstanceAs (Decidable (_ ∧ _))

/-! ## Claim theorems -/

/-- C10: for every input URL from which no item id can be extracted (the
`c` query parameter absent or unparsable), the per-item worker reports
exactly one error to the Controller and returns without performing any
fetch attempt: no page is opened, no backoff sleeps happen, and no output
file is written. -/
theorem invalid_id_reports_one_error_without_fetch
    (url : String) (outcome : ℕ → Bool)
    (h : get_car_id_from_url url = none) :
    scrape_single_url url outcome =
      { attempts := 0, successesReported := 0, errorsReported := 1
        backoffSleeps := [], politenessSleeps := 0, savedFile := none } := by
  simp [scrape_single_url, h]

/-- Witness for C10 at a URL whose query has no `c` parameter. -/
theorem invalid_id_reports_one_error_without_fetch_witness :
    get_car_id_from_url "https://crautos.com/cardetail.cfm?d=55" = none ∧
    scrape_single_url "https://crautos.com/cardetail.cfm?d=55" (fun _ => true) =
      { attempts := 0, successesReported := 0, errorsReported := 1
        backoffSleeps := [], politenessSleeps := 0, savedFile := none } :=
  ⟨by decide, invalid_id_reports_one_error_without_fetch _ _ (by decide)⟩

/-- C5: an item whose every fetch+extract attempt fails is attempted
exactly `TRIES = 3` times, reports exactly one error to the Controller,
sleeps the increasing backoff `3 + attempt * 2` between consecutive
attempts, and writes no output file for the item. -/
theorem exhausted_item_three_attempts_one_error_no_file
    (url cid : String) (outcome : ℕ → Bool)
    (hid : get_car_id_from_url url = some cid) (hne : cid ≠ "")
    (hfail : ∀ i, outcome i = false) :
    scrape_single_url url outcome =
      { attempts := 3, successesReported := 0, errorsReported := 1
        backoffSleeps := [3 + 0 * 2, 3 + 1 * 2], politenessSleeps := 0
        savedFile := none } := by
  have h0 : outcome = fun _ => false := funext hfail
  subst h0
  simp only [scrape_single_url, hid]
  rw [if_neg (by simp [hne])]
  rfl

/-- Witness for C5: a URL with id 123 and an always-failing fetch. -/
theorem exhausted_item_three_attempts_one_error_no_file_witness :
    get_car_id_from_url "https://crautos.com/cardetail.cfm?c=123" = some "123" ∧
    "123" ≠ "" ∧
    scrape_single_url "https://crautos.com/cardetail.cfm?c=123" (fun _ => false) =
      { attempts := 3, successesReported := 0, errorsReported := 1
        backoffSleeps := [3 + 0 * 2, 3 + 1 * 2], politenessSleeps := 0
        savedFile := none } :=
  ⟨by decide, by decide,
    exhausted_item_three_attempts_one_error_no_file _ "123" _ (by decide)
      (by decide) (fun _ => rfl)⟩

/-- C1 (controller/gate mismatch, evaluated at a failing input): `main`
creates the admission gate once as `asyncio.Semaphore(max_concurrency)`
and never resizes it.  Starting from `initial=8, min=3, max=30`, a window
with 8 successes and 2 errors makes the Controller contract its target to
`max(3, ⌊8·0.7⌋) = 5`, yet the gate's capacity is still the configured
maximum 30, so the admitted parallelism does not equal the Controller's
target. -/
theorem admission_gate_fixed_at_max_not_target :
    (FetchPhase.init 8 3 30 0).semCapacity = 30 ∧
    (((FetchPhase.recordSuccess^[8]) (FetchPhase.init 8 3 30 0)
        ).recordError.recordError.adjust 20).manager.target_concurrency = 5 ∧
    (((FetchPhase.recordSuccess^[8]) (FetchPhase.init 8 3 30 0)
        ).recordError.recordError.adjust 20).semCapacity = 30 := by
  refine ⟨rfl, ?_, ?_⟩ <;>
    norm_num [FetchPhase.init, FetchPhase.recordSuccess, FetchPhase.recordError,
      FetchPhase.adjust, Function.comp,
      ConcurrencyManager.init, ConcurrencyManager.record_success,
      ConcurrencyManager.record_error, ConcurrencyManager.adjust_concurrency,
      ConcurrencyManager.resetCounters]

/-- C2: past the dwell interval, a window of 8 successes and 2 errors
(error rate 0.2 > 0.1) contracts the target to `max(min, ⌊0.7·target⌋)`,
resets both counters and the timestamp, and appends nothing to the
throughput history; a window of 9 successes and 1 error (error rate
exactly 0.1) does not trigger the contraction: it falls through to the
optimization steps, which append the interval's sample to the history. -/
theorem contraction_strictly_above_tenth_error_rate
    (m : ConcurrencyManager) (now : ℚ)
    (hd : 20 ≤ now - m.last_check_time) :
    (m.success_count = 8 → m.error_count = 2 →
      (m.adjust_concurrency now).target_concurrency
          = Nat.max m.min (7 * m.target_concurrency / 10) ∧
      (m.adjust_concurrency now).success_count = 0 ∧
      (m.adjust_concurrency now).error_count = 0 ∧
      (m.adjust_concurrency now).last_check_time = now ∧
      (m.adjust_concurrency now).throughput_history = m.throughput_history) ∧
    (m.success_count = 9 → m.error_count = 1 →
      (m.adjust_concurrency now).throughput_history
        = dequePush 30 m.throughput_history
            (m.target_concurrency, (9 : ℚ) / (now - m.last_check_time))) := by
  constructor
  · intro h8 h2
    simp only [ConcurrencyManager.adjust_concurrency, h8, h2]
    rw [if_neg (not_lt.mpr hd)]
    norm_num [ConcurrencyManager.resetCounters]
  · intro h9 h1
    simp only [ConcurrencyManager.adjust_concurrency, h9, h1]
    rw [if_neg (not_lt.mpr hd)]
    norm_num [ConcurrencyManager.resetCounters]
    split_ifs <;> simp [ConcurrencyManager.resetCounters]

/-- Every branch of the decision function keeps the target inside
`[min, max]` when it was inside before. -/
lemma adjust_concurrency_inBounds (m : ConcurrencyManager) (now : ℚ)
    (h : InBounds m) : InBounds (m.adjust_concurrency now) := by
  obtain ⟨h1, h2⟩ := h
  have hdiv : 7 * m.target_concurrency / 10 ≤ m.target_concurrency := by omega
  have hA : m.min ≤ Nat.max m.min (7 * m.target_concurrency / 10) ∧
      Nat.max m.min (7 * m.target_concurrency / 10) ≤ m.max :=
    ⟨Nat.le_max_left _ _, Nat.max_le.mpr ⟨h1.trans h2, hdiv.trans h2⟩⟩
  have hB : m.min ≤ Nat.min m.max (m.target_concurrency + 1) ∧
      Nat.min m.max (m.target_concurrency + 1) ≤ m.max :=
    ⟨Nat.le_min.mpr ⟨h1.trans h2, h1.trans (Nat.le_succ _)⟩,
      Nat.min_le_left _ _⟩
  have hC : m.min ≤ Nat.max m.min (m.target_concurrency - 1) ∧
      Nat.max m.min (m.target_concurrency - 1) ≤ m.max :=
    ⟨Nat.le_max_left _ _,
      Nat.max_le.mpr ⟨h1.trans h2, (Nat.sub_le _ _).trans h2⟩⟩
  simp only [ConcurrencyManager.adjust_concurrency]
  split_ifs <;>
    first
      | exact ⟨h1, h2⟩
      | exact hA
      | exact hB
      | exact hC

/-- Single operations preserve the target bounds. -/
lemma applyOp_inBounds (op : ControllerOp) (m : ConcurrencyManager)
    (h : InBounds m) : InBounds (applyOp op m) := by
  cases op with
  | success => exact h
  | error => exact h
  | adjust now => exact adjust_concurrency_inBounds m now h

/-- Operation sequences preserve the target bounds. -/
lemma runOps_inBounds (ops : List ControllerOp) (m : ConcurrencyManager)
    (h : InBounds m) : InBounds (runOps ops m) := by
  induction ops generalizing m with
  | nil => exact h
  | cons op rest ih =>
    simpa [runOps, List.foldl] using ih (applyOp op m) (applyOp_inBounds op m h)

/-- Past the dwell gate, every branch of the decision function resets the
success counter, the error counter, and the timestamp together. -/
lemma adjust_concurrency_resets (m : ConcurrencyManager) (now : ℚ)
    (hd : 20 ≤ now - m.last_check_time) :
    (m.adjust_concurrency now).success_count = 0 ∧
    (m.adjust_concurrency now).error_count = 0 ∧
    (m.adjust_concurrency now).last_check_time = now := by
  simp only [ConcurrencyManager.adjust_concurrency]
  rw [if_neg (not_lt.mpr hd)]
  split_ifs <;> exact ⟨rfl, rfl, rfl⟩

/-- C6: with `min ≤ initial ≤ max`, the Controller's target stays within
`[min, max]` after every sequence of `record_success`, `record_error` and
`adjust_concurrency` operations, and on every decision (each
`adjust_concurrency` firing past the dwell gate) the success counter,
error counter, and last-decision timestamp are reset together. -/
theorem controller_bounds_invariant_and_atomic_reset
    (initial min_val max_val : ℕ) (t0 : ℚ)
    (hmi : min_val ≤ initial) (him : initial ≤ max_val) :
    (∀ ops : List ControllerOp,
      InBounds (runOps ops (ConcurrencyManager.init initial min_val max_val t0))) ∧
    (∀ (m : ConcurrencyManager) (now : ℚ), 20 ≤ now - m.last_check_time →
      (m.adjust_concurrency now).success_count = 0 ∧
      (m.adjust_concurrency now).error_count = 0 ∧
      (m.adjust_concurrency now).last_check_time = now) :=
  ⟨fun ops => runOps_inBounds ops _ ⟨hmi, him⟩,
    fun m now hd => adjust_concurrency_resets m now hd⟩

/-- Witness for C6: bounds `3 ≤ 8 ≤ 30`, a short operation sequence, and a
decision fired at time 25. -/
theorem controller_bounds_invariant_and_atomic_reset_witness :
    (3 ≤ 8 ∧ 8 ≤ 30) ∧
    InBounds (runOps
      [ControllerOp.success, ControllerOp.error, ControllerOp.adjust 25]
      (ConcurrencyManager.init 8 3 30 0)) ∧
    ((20 : ℚ) ≤ 25 - (ConcurrencyManager.init 8 3 30 0).last_check_time ∧
      ((ConcurrencyManager.init 8 3 30 0).adjust_concurrency 25).success_count = 0 ∧
      ((ConcurrencyManager.init 8 3 30 0).adjust_concurrency 25).error_count = 0 ∧
      ((ConcurrencyManager.init 8 3 30 0).adjust_concurrency 25).last_check_time = 25) := by
  have hd : (20 : ℚ) ≤ 25 - (ConcurrencyManager.init 8 3 30 0).last_check_time := by
    norm_num [ConcurrencyManager.init]
  refine ⟨⟨by decide, by decide⟩, ?_, hd, ?_⟩
  · exact (controller_bounds_invariant_and_atomic_reset 8 3 30 0 (by decide)
      (by decide)).1 _
  · exact (controller_bounds_invariant_and_atomic_reset 8 3 30 0 (by decide)
      (by decide)).2 _ 25 hd

/-- C3 (harvest idempotence, and the legacy guard bug evaluated at the
failing state): with the discovery file already present, the
data_scrapper harvest returns immediately — filesystem untouched, zero
network calls, so a second call changes nothing; at the same state the
legacy `scraper.py` variant, whose existence guard is commented out while
its docstring still promises to scrape only when the file is missing,
performs nonzero network calls and rewrites the discovery file. -/
theorem harvest_short_circuit_and_legacy_rescrape :
    (ensure_url_list_exists
        { control := none, navOk := fun _ => true, extract := fun _ => some [] }
        { urlsFile := some ["a"], failedFile := none } =
      { fs := { urlsFile := some ["a"], failedFile := none }
        networkCalls := 0, aborted := false }) ∧
    (ensure_url_list_exists_legacy { pages := [["b"]] }
        { urlsFile := some ["a"], failedFile := none }).networkCalls = 2 ∧
    (ensure_url_list_exists_legacy { pages := [["b"]] }
        { urlsFile := some ["a"], failedFile := none }).fs.urlsFile = some ["b"] ∧
    (2 : ℕ) ≠ 0 :=
  ⟨by decide, by decide, by decide, by decide⟩

/-- When the discovery file is absent and the page count resolves to `n`,
the harvest walks exactly pages `1..n` and persists the accumulated set. -/
lemma ensure_url_list_exists_eq_of_resolved
    (env : HarvestEnv) (fs : FS) (n : ℕ)
    (hno : fs.urlsFile = none) (hn : resolvePageCount env = some n) :
    ensure_url_list_exists env fs =
      { fs := { ((List.range' 1 n).foldl (harvestPage env) ([], fs)).2 with
            urlsFile := some ((List.range' 1 n).foldl (harvestPage env) ([], fs)).1 }
        networkCalls := 2 + (((List.range' 1 n).filter (fun p => 1 < p)).length)
        aborted := false } := by
  simp [ensure_url_list_exists, hno, hn]

/-- C8: resolving the page count at harvest start, with the discovery file
absent: when the last-page control's lookup times out, the harvest assumes
exactly one page — it does not abort, processes just page 1 and persists;
when the control is present but its embedded page argument does not match
the pattern, the harvest aborts with the filesystem exactly as it was
(nothing persisted). -/
theorem absent_control_one_page_unparseable_control_aborts
    (env1 env2 : HarvestEnv) (fs : FS) (href : String)
    (hno : fs.urlsFile = none)
    (h1 : env1.control = none)
    (h2 : env2.control = some href)
    (h2p : findPageArg href.toList = none) :
    ((ensure_url_list_exists env1 fs).aborted = false ∧
      (ensure_url_list_exists env1 fs).fs.urlsFile
        = some (harvestPage env1 ([], fs) 1).1 ∧
      (ensure_url_list_exists env1 fs).fs.failedFile
        = (harvestPage env1 ([], fs) 1).2.failedFile) ∧
    ensure_url_list_exists env2 fs =
      { fs := fs, networkCalls := 2, aborted := true } := by
  have hres1 : resolvePageCount env1 = some 1 := by
    simp [resolvePageCount, h1]
  have hres2 : resolvePageCount env2 = none := by
    simp only [resolvePageCount, h2]
    exact h2p
  have hmain := ensure_url_list_exists_eq_of_resolved env1 fs 1 hno hres1
  refine ⟨⟨?_, ?_, ?_⟩, ?_⟩
  · rw [hmain]
  · rw [hmain]; rfl
  · rw [hmain]; rfl
  · simp [ensure_url_list_exists, hno, hres2]

/-- Witness for C8: an empty filesystem, an environment with the control
absent, and one with an unparseable control. -/
theorem absent_control_one_page_unparseable_control_aborts_witness :
    (({ urlsFile := none, failedFile := none } : FS).urlsFile = none ∧
      ({ control := none, navOk := fun _ => true,
         extract := fun _ => some ["u"] } : HarvestEnv).control = none ∧
      ({ control := some (pageHref ['x']), navOk := fun _ => true,
         extract := fun _ => some ["u"] } : HarvestEnv).control
        = some (pageHref ['x']) ∧
      findPageArg (pageHref ['x']).toList = none) ∧
    ((ensure_url_list_exists
        { control := none, navOk := fun _ => true, extract := fun _ => some ["u"] }
        { urlsFile := none, failedFile := none }).aborted = false ∧
      (ensure_url_list_exists
        { control := none, navOk := fun _ => true, extract := fun _ => some ["u"] }
        { urlsFile := none, failedFile := none }).fs.urlsFile
        = some (harvestPage
            { control := none, navOk := fun _ => true, extract := fun _ => some ["u"] }
            ([], { urlsFile := none, failedFile := none }) 1).1 ∧
      (ensure_url_list_exists
        { control := none, navOk := fun _ => true, extract := fun _ => some ["u"] }
        { urlsFile := none, failedFile := none }).fs.failedFile
        = (harvestPage
            { control := none, navOk := fun _ => true, extract := fun _ => some ["u"] }
            ([], { urlsFile := none, failedFile := none }) 1).2.failedFile) ∧
    ensure_url_list_exists
        { control := some (pageHref ['x']), navOk := fun _ => true,
          extract := fun _ => some ["u"] }
        { urlsFile := none, failedFile := none } =
      { fs := { urlsFile := none, failedFile := none }
        networkCalls := 2, aborted := true } := by
  have h := absent_control_one_page_unparseable_control_aborts
    { control := none, navOk := fun _ => true, extract := fun _ => some ["u"] }
    { control := some (pageHref ['x']), navOk := fun _ => true,
      extract := fun _ => some ["u"] }
    { urlsFile := none, failedFile := none } (pageHref ['x'])
    rfl rfl rfl (by decide)
  exact ⟨⟨rfl, rfl, rfl, by decide⟩, h.1, h.2⟩

/-- Appending a marker keeps it present. -/
lemma append_failed_url_mem_self (fs : FS) (u : String) :
    u ∈ (append_failed_url fs u).failedFile.getD [] := by
  simp only [append_failed_url, Option.getD_some]
  split_ifs with h
  · simpa using h
  · simp

/-- Appending a marker never removes existing markers. -/
lemma append_failed_url_mem_mono (fs : FS) (u v : String)
    (h : u ∈ fs.failedFile.getD []) :
    u ∈ (append_failed_url fs v).failedFile.getD [] := by
  simp only [append_failed_url, Option.getD_some]
  split_ifs with hv
  · simpa using h
  · simp [h]

/-- Processing one page never removes an already-written marker. -/
lemma harvestPage_failed_mono (env : HarvestEnv) (acc : List String × FS)
    (p : ℕ) (u : String) (h : u ∈ acc.2.failedFile.getD []) :
    u ∈ (harvestPage env acc p).2.failedFile.getD [] := by
  unfold harvestPage
  split_ifs with h1
  · exact append_failed_url_mem_mono _ _ _ h
  · cases hx : env.extract p with
    | none => simpa [hx] using append_failed_url_mem_mono _ _ _ h
    | some hrefs => simpa [hx] using h

/-- The page walk never removes an already-written marker. -/
lemma foldl_harvestPage_failed_mono (env : HarvestEnv) (ps : List ℕ)
    (acc : List String × FS) (u : String)
    (h : u ∈ acc.2.failedFile.getD []) :
    u ∈ ((ps.foldl (harvestPage env) acc).2.failedFile.getD []) := by
  induction ps generalizing acc with
  | nil => exact h
  | cons p rest ih =>
    exact ih (harvestPage env acc p) (harvestPage_failed_mono env acc p u h)

/-- A failing page leaves its `PAGE::<n>` marker after its own step. -/
lemma harvestPage_marks_failed (env : HarvestEnv) (acc : List String × FS)
    (p : ℕ) (hf : pageFails env p = true) :
    ("PAGE::" ++ Nat.repr p) ∈ (harvestPage env acc p).2.failedFile.getD [] := by
  unfold harvestPage
  unfold pageFails at hf
  split_ifs at hf ⊢ with h1
  · exact append_failed_url_mem_self _ _
  · cases hx : env.extract p with
    | none => simpa [hx] using append_failed_url_mem_self acc.2 _
    | some hrefs => rw [hx] at hf; simp at hf

/-- Every failing page in the walk ends up marked. -/
lemma foldl_harvestPage_marks (env : HarvestEnv) (ps : List ℕ) (p : ℕ)
    (hf : pageFails env p = true) :
    ∀ acc : List String × FS, p ∈ ps →
      ("PAGE::" ++ Nat.repr p) ∈
        ((ps.foldl (harvestPage env) acc).2.failedFile.getD []) := by
  induction ps with
  | nil => intro acc hp; cases hp
  | cons q rest ih =>
    intro acc hp
    rcases List.mem_cons.mp hp with rfl | hmem
    · exact foldl_harvestPage_failed_mono env rest _ _
        (harvestPage_marks_failed env acc p hf)
    · exact ih (harvestPage env acc q) hmem

/-- C7: during a harvest over pages `1..n` (the discovery file being
absent and the page count resolving to `n`), a failed pagination
transition or a link-extraction timeout on any single page never aborts
the run — the page's `PAGE::<n>` marker is in the final marker file — and
after the loop the accumulated URL set is persisted unconditionally. -/
theorem page_failure_marks_and_continues
    (env : HarvestEnv) (fs : FS) (n : ℕ)
    (hno : fs.urlsFile = none) (hn : resolvePageCount env = some n) :
    (ensure_url_list_exists env fs).aborted = false ∧
    ((ensure_url_list_exists env fs).fs.urlsFile).isSome = true ∧
    (∀ p, 1 ≤ p → p ≤ n → pageFails env p = true →
      ("PAGE::" ++ Nat.repr p) ∈
        ((ensure_url_list_exists env fs).fs.failedFile.getD [])) := by
  rw [ensure_url_list_exists_eq_of_resolved env fs n hno hn]
  refine ⟨rfl, rfl, ?_⟩
  intro p hp1 hpn hf
  have hmem : p ∈ List.range' 1 n := by
    rw [List.mem_range'_1]
    omega
  exact foldl_harvestPage_marks env (List.range' 1 n) p hf ([], fs) hmem

/-- Witness for C7: three pages, page 2 failing its transition and page 3
its extraction; both markers are present and the partial set persists. -/
theorem page_failure_marks_and_continues_witness :
    (({ urlsFile := none, failedFile := none } : FS).urlsFile = none ∧
      resolvePageCount
        { control := some (pageHref ['3']), navOk := fun p => p ≠ 2,
          extract := fun p => if p = 3 then none else some ["u1", "u2"] }
        = some 3 ∧
      1 ≤ 2 ∧ 2 ≤ 3 ∧
      pageFails
        { control := some (pageHref ['3']), navOk := fun p => p ≠ 2,
          extract := fun p => if p = 3 then none else some ["u1", "u2"] } 2
        = true) ∧
    ((ensure_url_list_exists
        { control := some (pageHref ['3']), navOk := fun p => p ≠ 2,
          extract := fun p => if p = 3 then none else some ["u1", "u2"] }
        { urlsFile := none, failedFile := none }).aborted = false ∧
      ((ensure_url_list_exists
        { control := some (pageHref ['3']), navOk := fun p => p ≠ 2,
          extract := fun p => if p = 3 then none else some ["u1", "u2"] }
        { urlsFile := none, failedFile := none }).fs.urlsFile).isSome = true ∧
      ("PAGE::" ++ Nat.repr 2) ∈
        ((ensure_url_list_exists
          { control := some (pageHref ['3']), navOk := fun p => p ≠ 2,
            extract := fun p => if p = 3 then none else some ["u1", "u2"] }
          { urlsFile := none, failedFile := none }).fs.failedFile.getD [])) := by
  have h := page_failure_marks_and_continues
    { control := some (pageHref ['3']), navOk := fun p => p ≠ 2,
      extract := fun p => if p = 3 then none else some ["u1", "u2"] }
    { urlsFile := none, failedFile := none } 3 rfl (by decide)
  exact ⟨⟨rfl, by decide, by decide, by decide, by decide⟩,
    h.1, h.2.1, h.2.2 2 (by decide) (by decide) (by decide)⟩

/-- Invariant of the inner `newly_scraped_urls` accumulation of one
retried page (01_scraper_pagination_list.py lines 185-196): the result is
disjoint from the existing set, has no duplicates, and holds exactly the
prior accumulator plus the page's URLs outside the existing set. -/
lemma addNewFold_spec (existing : List String) :
    ∀ urls newly : List String,
      (∀ x ∈ newly, x ∉ existing) → newly.Nodup →
      (∀ x ∈ urls.foldl
          (fun acc u => if u ∈ existing ∨ u ∈ acc then acc else acc ++ [u])
          newly, x ∉ existing) ∧
      (urls.foldl
          (fun acc u => if u ∈ existing ∨ u ∈ acc then acc else acc ++ [u])
          newly).Nodup ∧
      (∀ x, x ∈ urls.foldl
          (fun acc u => if u ∈ existing ∨ u ∈ acc then acc else acc ++ [u])
          newly ↔ (x ∈ newly ∨ (x ∈ urls ∧ x ∉ existing))) := by
  intro urls
  induction urls with
  | nil =>
    intro newly hdis hnd
    refine ⟨hdis, hnd, ?_⟩
    simp
  | cons u rest ih =>
    intro newly hdis hnd
    simp only [List.foldl_cons]
    by_cases hu : u ∈ existing ∨ u ∈ newly
    · rw [if_pos hu]
      obtain ⟨ha, hb, hc⟩ := ih newly hdis hnd
      refine ⟨ha, hb, ?_⟩
      intro x
      rw [hc x]
      constructor
      · rintro (hx | ⟨hx1, hx2⟩)
        · exact Or.inl hx
        · exact Or.inr ⟨List.mem_cons_of_mem _ hx1, hx2⟩
      · rintro (hx | ⟨hx1, hx2⟩)
        · exact Or.inl hx
        · rcases List.mem_cons.mp hx1 with rfl | hx1
          · rcases hu with h | h
            · exact absurd h hx2
            · exact Or.inl h
          · exact Or.inr ⟨hx1, hx2⟩
    · rw [if_neg hu]
      push_neg at hu
      obtain ⟨hu1, hu2⟩ := hu
      have hdis2 : ∀ x ∈ newly ++ [u], x ∉ existing := by
        intro x hx
        rcases List.mem_append.mp hx with hx | hx
        · exact hdis x hx
        · rw [List.mem_singleton] at hx
          subst hx
          exact hu1
      have hnd2 : (newly ++ [u]).Nodup := by
        rw [List.nodup_append]
        refine ⟨hnd, List.nodup_singleton u, ?_⟩
        intro a ha hb
        rw [List.mem_singleton] at hb
        subst hb
        exact hu2 ha
      obtain ⟨ha, hb, hc⟩ := ih (newly ++ [u]) hdis2 hnd2
      refine ⟨ha, hb, ?_⟩
      intro x
      rw [hc x]
      simp only [List.mem_append, List.mem_singleton, List.mem_cons,
        List.not_mem_nil, or_false]
      constructor
      · rintro ((hx | rfl) | ⟨hx1, hx2⟩)
        · exact Or.inl hx
        · exact Or.inr ⟨Or.inl rfl, hu1⟩
        · exact Or.inr ⟨Or.inr hx1, hx2⟩
      · rintro (hx | ⟨rfl | hx1, hx2⟩)
        · exact Or.inl (Or.inl hx)
        · exact Or.inl (Or.inr rfl)
        · exact Or.inr ⟨hx1, hx2⟩

/-- Invariant of the whole retry loop: the accumulated new URLs are
disjoint from the existing set, duplicate-free, and are exactly the URLs
the retried pages yielded minus those already present. -/
lemma retryLoop_spec (env : RetryEnv) (existing : List String) :
    ∀ items newly : List String,
      (∀ x ∈ newly, x ∉ existing) → newly.Nodup →
      (∀ x ∈ (retryLoop env existing items newly).2, x ∉ existing) ∧
      ((retryLoop env existing items newly).2).Nodup ∧
      (∀ x, x ∈ (retryLoop env existing items newly).2 ↔
        (x ∈ newly ∨ (x ∈ yieldedUrls env items ∧ x ∉ existing))) := by
  intro items
  induction items with
  | nil =>
    intro newly hdis hnd
    refine ⟨hdis, hnd, ?_⟩
    simp [retryLoop, yieldedUrls]
  | cons item rest ih =>
    intro newly hdis hnd
    cases hpm : isPageMarker item with
    | false =>
      simpa [retryLoop, yieldedUrls, hpm] using ih newly hdis hnd
    | true =>
      cases hpi : parseIntOpt (markerPayload item) with
      | none =>
        simpa [retryLoop, yieldedUrls, hpm, hpi] using ih newly hdis hnd
      | some pn =>
        cases hro : env.retryOutcome pn with
        | none =>
          simpa [retryLoop, yieldedUrls, hpm, hpi, hro] using ih newly hdis hnd
        | some urls =>
          obtain ⟨ha, hb, hc⟩ := addNewFold_spec existing urls newly hdis hnd
          obtain ⟨ra, rb, rc⟩ := ih _ ha hb
          refine ⟨?_, ?_, ?_⟩
          · simpa [retryLoop, yieldedUrls, hpm, hpi, hro] using ra
          · simpa [retryLoop, yieldedUrls, hpm, hpi, hro] using rb
          · intro x
            have hgoal :
                x ∈ (retryLoop env existing (item :: rest) newly).2 ↔
                  x ∈ (retryLoop env existing rest
                    (urls.foldl (fun acc u =>
                      if u ∈ existing ∨ u ∈ acc then acc else acc ++ [u])
                      newly)).2 := by
              simp [retryLoop, hpm, hpi, hro]
            rw [hgoal, rc x, hc x]
            have hyield :
                yieldedUrls env (item :: rest)
                  = urls ++ yieldedUrls env rest := by
              simp [yieldedUrls, hpm, hpi, hro]
            rw [hyield]
            simp only [List.mem_append]
            tauto

/-- Everything the retry loop keeps in `still_failed` is a `PAGE::`
marker: non-marker items are never appended there. -/
lemma retryLoop_still_failed_are_markers (env : RetryEnv)
    (existing : List String) :
    ∀ items newly : List String, ∀ x ∈ (retryLoop env existing items newly).1,
      isPageMarker x = true := by
  intro items
  induction items with
  | nil =>
    intro newly x hx
    simp [retryLoop] at hx
  | cons item rest ih =>
    intro newly x hx
    cases hpm : isPageMarker item with
    | false =>
      simp only [retryLoop, hpm, Bool.false_eq_true, if_false] at hx
      exact ih newly x hx
    | true =>
      cases hpi : parseIntOpt (markerPayload item) with
      | none =>
        simp only [retryLoop, hpm, hpi, if_true] at hx
        rcases List.mem_cons.mp hx with rfl | hx2
        · exact hpm
        · exact ih newly x hx2
      | some pn =>
        cases hro : env.retryOutcome pn with
        | none =>
          simp only [retryLoop, hpm, hpi, hro, if_true] at hx
          rcases List.mem_cons.mp hx with rfl | hx2
          · exact hpm
          · exact ih newly x hx2
        | some urls =>
          simp only [retryLoop, hpm, hpi, hro, if_true] at hx
          exact ih _ x hx

/-- C4: for an existing discovery set `S` (no duplicates) and a retry pass
over a non-empty marker list whose successfully retried pages yield the
URLs `N = yieldedUrls env items`, the discovery set persisted by
`retry_failed_pages` is exactly the set union of `S` and `N`: it has no
duplicates, keeps every element of `S`, and contains every element of
`N`. -/
theorem retry_union_keeps_existing_adds_new
    (env : RetryEnv) (S items : List String)
    (hS : S.Nodup) (hne : items ≠ []) (hbase : env.baseOk = true) :
    ((retry_failed_pages env
        { urlsFile := some S, failedFile := some items }).urlsFile.getD []).Nodup ∧
    (∀ x, x ∈ (retry_failed_pages env
        { urlsFile := some S, failedFile := some items }).urlsFile.getD [] ↔
      (x ∈ S ∨ x ∈ yieldedUrls env items)) := by
  obtain ⟨ra, rb, rc⟩ :=
    retryLoop_spec env S items [] (by simp) List.nodup_nil
  have hded : (Option.getD (some S) []).dedup = S := by
    simpa using List.dedup_eq_self.mpr hS
  simp only [retry_failed_pages, hded]
  rw [if_neg hne, if_neg (by simp [hbase])]
  by_cases h2 : (retryLoop env S items []).2 = []
  · have hsub : ∀ x ∈ yieldedUrls env items, x ∈ S := by
      intro x hx
      by_contra hxs
      have hmem : x ∈ (retryLoop env S items []).2 :=
        (rc x).mpr (Or.inr ⟨hx, hxs⟩)
      rw [h2] at hmem
      cases hmem
    simp only [h2, ne_eq, not_true_eq_false, if_false]
    split_ifs <;>
      · refine ⟨hS, ?_⟩
        intro x
        simp only [Option.getD_some]
        constructor
        · exact fun hx => Or.inl hx
        · rintro (hx | hx)
          · exact hx
          · exact hsub x hx
  · have hdisj : S.Disjoint (retryLoop env S items []).2 := by
      intro a haS haR
      exact ra a haR haS
    simp only [ne_eq, h2, not_false_eq_true, if_true]
    split_ifs <;>
      · refine ⟨?_, ?_⟩
        · simp only [Option.getD_some]
          rw [List.nodup_append]
          exact ⟨hS, rb, hdisj⟩
        · intro x
          simp only [Option.getD_some, List.mem_append]
          rw [rc x]
          simp only [List.not_mem_nil, false_or]
          tauto

/-- Witness for C4: `S = {a,b}` and one marker whose retry yields `{c,d}`,
merging to exactly `{a,b,c,d}`. -/
theorem retry_union_keeps_existing_adds_new_witness :
    (["a", "b"].Nodup ∧ (["PAGE::2"] : List String) ≠ [] ∧
      ({ baseOk := true,
         retryOutcome := fun p => if p = 2 then some ["c", "d"] else none } :
        RetryEnv).baseOk = true) ∧
    (((retry_failed_pages
        { baseOk := true,
          retryOutcome := fun p => if p = 2 then some ["c", "d"] else none }
        { urlsFile := some ["a", "b"],
          failedFile := some ["PAGE::2"] }).urlsFile.getD []).Nodup ∧
      (∀ x, x ∈ (retry_failed_pages
          { baseOk := true,
            retryOutcome := fun p => if p = 2 then some ["c", "d"] else none }
          { urlsFile := some ["a", "b"],
            failedFile := some ["PAGE::2"] }).urlsFile.getD [] ↔
        (x ∈ ["a", "b"] ∨ x ∈ yieldedUrls
          { baseOk := true,
            retryOutcome := fun p => if p = 2 then some ["c", "d"] else none }
          ["PAGE::2"]))) :=
  ⟨⟨by decide, by decide, rfl⟩,
    retry_union_keeps_existing_adds_new _ ["a", "b"] ["PAGE::2"]
      (by decide) (by decide) rfl⟩

/-- C9: an entry of the failed-marker file that does not start with
`PAGE::` is neither retried nor preserved by the retry pass: it is absent
from the marker file the pass leaves behind (which is rewritten to the
still-failing `PAGE::` markers, or deleted outright). -/
theorem non_page_marker_entries_silently_dropped
    (env : RetryEnv) (fs : FS) (items : List String) (item : String)
    (hff : fs.failedFile = some items) (hne : items ≠ [])
    (hbase : env.baseOk = true) (hmem : item ∈ items)
    (hnp : isPageMarker item = false) :
    item ∉ ((retry_failed_pages env fs).failedFile.getD []) := by
  obtain ⟨u, f⟩ := fs
  simp only at hff
  subst hff
  simp only [retry_failed_pages]
  rw [if_neg hne, if_neg (by simp [hbase])]
  split_ifs <;>
    first
      | (intro hx
         have hmark := retryLoop_still_failed_are_markers env _ items [] item
           (by simpa using hx)
         rw [hnp] at hmark
         simp at hmark)
      | simp

/-- Witness for C9: a marker file holding one real marker and one junk
entry; the junk entry does not survive the retry pass. -/
theorem non_page_marker_entries_silently_dropped_witness :
    (({ urlsFile := some ["a"], failedFile := some ["PAGE::2", "junk"] } :
        FS).failedFile = some ["PAGE::2", "junk"] ∧
      (["PAGE::2", "junk"] : List String) ≠ [] ∧
      ({ baseOk := true, retryOutcome := fun _ => some ["c"] } :
        RetryEnv).baseOk = true ∧
      "junk" ∈ ["PAGE::2", "junk"] ∧
      isPageMarker "junk" = false) ∧
    "junk" ∉ ((retry_failed_pages
        { baseOk := true, retryOutcome := fun _ => some ["c"] }
        { urlsFile := some ["a"],
          failedFile := some ["PAGE::2", "junk"] }).failedFile.getD []) :=
  ⟨⟨rfl, by decide, rfl, by decide, by decide⟩,
    non_page_marker_entries_silently_dropped _ _ ["PAGE::2", "junk"] "junk"
      rfl (by decide) rfl (by decide) (by decide)⟩

/-- Witness for C2 at target 10, bounds [3,30], last decision at time 0,
decision at time 20. -/
theorem contraction_strictly_above_tenth_error_rate_witness :
    (20 : ℚ) ≤ 20 -
      ({ ConcurrencyManager.init 10 3 30 0 with success_count := 8, error_count := 2 } :
        ConcurrencyManager).last_check_time ∧
    (({ ConcurrencyManager.init 10 3 30 0 with success_count := 8, error_count := 2 } :
        ConcurrencyManager).adjust_concurrency 20).target_concurrency
      = Nat.max 3 (7 * 10 / 10) ∧
    (({ ConcurrencyManager.init 10 3 30 0 with success_count := 9, error_count := 1 } :
        ConcurrencyManager).adjust_concurrency 20).throughput_history
      = dequePush 30 [] (10, (9 : ℚ) / 20) := by
  have hd : (20 : ℚ) ≤ 20 -
      ({ ConcurrencyManager.init 10 3 30 0 with success_count := 8, error_count := 2 } :
        ConcurrencyManager).last_check_time := by
    norm_num [ConcurrencyManager.init]
  have hd9 : (20 : ℚ) ≤ 20 -
      ({ ConcurrencyManager.init 10 3 30 0 with success_count := 9, error_count := 1 } :
        ConcurrencyManager).last_check_time := by
    norm_num [ConcurrencyManager.init]
  refine ⟨hd, ?_, ?_⟩
  · exact ((contraction_strictly_above_tenth_error_rate _ 20 hd).1 rfl rfl).1
  · have h :=
      (contraction_strictly_above_tenth_error_rate _ 20 hd9).2 rfl rfl
    simpa [ConcurrencyManager.init] using h

end Crautos
